import Mathlib

/-!
Shallow embedding of the windsurf-tui catalog-tree / pane-model core
(files debug.go, pane_navigator.go, text_input.go, postgres_tree_loader.go,
sqlite_tree_loader.go) together with theorems settling the frozen claims.

Go pointers and in-place mutation are modelled by explicit state passing.
Go machine ints are modelled as Lean Int (the source never relies on
overflow). The TreeNode struct of the source carries a Parent back
pointer and a Metadata record; the back pointer is modelled separately as
a parent chain (PNode below, used only by the path-reconstruction
functions, exactly as in the source), and Metadata is omitted because no
embedded operation reads or writes it.
-/

/-- Node kinds, from the NodeType enum in debug.go. -/
inductive NodeType where
  | server
  | database
  | schema
  | table
  | column
deriving DecidableEq, Repr

/-- Scalar fields of the Go TreeNode struct (debug.go): ID, Name, Type,
Path, Expanded, Selected, Level.  Children is factored into the inductive
below; Parent and Metadata are modelled as described in the file header. -/
structure NodeData where
  id : String
  name : String
  type : NodeType
  path : String
  expanded : Bool
  selected : Bool
  level : Int
deriving DecidableEq, Repr

/-- The Go TreeNode: scalar data plus an owned ordered child list. -/
inductive TreeNode where
  | mk (data : NodeData) (children : List TreeNode)

/-- Scalar data of a node. -/
def TreeNode.nodeData : TreeNode → NodeData
  | .mk d _ => d

/-- Child list of a node. -/
def TreeNode.children : TreeNode → List TreeNode
  | .mk _ cs => cs

/-- Replace the child list of a node, as Go child-list assignment does. -/
def TreeNode.withChildren : TreeNode → List TreeNode → TreeNode
  | .mk d _, cs => .mk d cs

/-- Go TreeNode.HasChildren (debug.go): true when the child list is non-empty. -/
def TreeNode.hasChildren (n : TreeNode) : Bool :=
  n.children.length > 0

/-- Go TreeNode.IsLeaf (debug.go): true when the child list is empty. -/
def TreeNode.isLeaf (n : TreeNode) : Bool :=
  n.children.length = 0

/-- Go TreeNode.ToggleExpanded (debug.go): flips Expanded only when the
node has children. -/
def TreeNode.toggleExpanded (n : TreeNode) : TreeNode :=
  if n.hasChildren then
    .mk { n.nodeData with expanded := !n.nodeData.expanded } n.children
  else n

/-- Go TreeNode.Expand (debug.go): sets Expanded only when the node has
children. -/
def TreeNode.expand (n : TreeNode) : TreeNode :=
  if n.hasChildren then
    .mk { n.nodeData with expanded := true } n.children
  else n

/-- Go TreeNode.Collapse (debug.go): clears Expanded unconditionally. -/
def TreeNode.collapse (n : TreeNode) : TreeNode :=
  .mk { n.nodeData with expanded := false } n.children

mutual

/-- Go TreeModel.getVisibleNodes (debug.go).  The source also threads an
integer index parameter that is never read; it is dropped here.  A node is
emitted when its Level is at least 0; its children are traversed when its
Level is -1 (the synthetic root) or it is expanded; a node with Level
below -1 is skipped together with its subtree. -/
def getVisibleNodes (n : TreeNode) : List TreeNode :=
  match n with
  | .mk d cs =>
    if d.level ≥ 0 ∨ d.level = -1 then
      (if d.level ≥ 0 then [TreeNode.mk d cs] else []) ++
      (if d.level = -1 ∨ d.expanded then getVisibleList cs else [])
    else []

/-- The child loop of Go TreeModel.getVisibleNodes: concatenation of the
visible nodes of each child in order. -/
def getVisibleList : List TreeNode → List TreeNode
  | [] => []
  | c :: rest => getVisibleNodes c ++ getVisibleList rest

end

/-- Go TreeModel.GetAllVisibleNodes (debug.go): the visible nodes starting
from the synthetic root. -/
def getAllVisibleNodes (root : TreeNode) : List TreeNode :=
  getVisibleNodes root

mutual

/-- Written from the words of the spec: the nodes visible strictly below a
node whose children are traversed (the root counts as always expanded):
each child in order, followed by its own visible descendants when that
child is expanded. -/
def visibleBelowSpec (n : TreeNode) : List TreeNode :=
  match n with
  | .mk _ cs => visibleListSpec cs

/-- Written from the words of the spec: depth-first flattening of a child
list through expanded ancestors. -/
def visibleListSpec : List TreeNode → List TreeNode
  | [] => []
  | c :: rest =>
    (c :: (if c.nodeData.expanded then visibleBelowSpec c else [])) ++
      visibleListSpec rest

end

mutual

/-- True when this node and all of its descendants have Level at least 0
(the shape of every non-root node the program constructs). -/
def nodeLevelsOK (n : TreeNode) : Bool :=
  match n with
  | .mk d cs => decide (d.level ≥ 0) && listLevelsOK cs

/-- nodeLevelsOK over a list of nodes. -/
def listLevelsOK : List TreeNode → Bool
  | [] => true
  | c :: rest => nodeLevelsOK c && listLevelsOK rest

end

/-- Parent-chain view of a tree node: the Name of the node together with
its Parent back pointer, which is all that the path-reconstruction code of
pane_navigator.go reads.  none models the Go nil pointer. -/
inductive PNode where
  | mk (name : String) (parent : Option PNode)

/-- Name of a chained node. -/
def PNode.name : PNode → String
  | .mk nm _ => nm

/-- Parent of a chained node. -/
def PNode.parent : PNode → Option PNode
  | .mk _ p => p

/-- The name list collected by the loop of Go PaneNavigator.buildPath:
each name is prepended while walking parent links, so the result lists
names from the topmost ancestor down to the node itself. -/
def chainNames : PNode → List String
  | .mk nm none => [nm]
  | .mk nm (some p) => chainNames p ++ [nm]

/-- Go PaneNavigator.buildPath (pane_navigator.go): empty for nil, else
the dot-join of the parent-chain names. -/
def buildPath : Option PNode → String
  | none => ""
  | some n => String.intercalate "." (chainNames n)

/-- Character loop of Go splitPath (pane_navigator.go): splits on dots and
drops empty segments. -/
def splitPathAux : List Char → String → List String → List String
  | [], current, parts =>
    if current ≠ "" then parts ++ [current] else parts
  | c :: rest, current, parts =>
    if c = '.' then
      if current ≠ "" then splitPathAux rest "" (parts ++ [current])
      else splitPathAux rest "" parts
    else splitPathAux rest (current.push c) parts

/-- Go splitPath (pane_navigator.go). -/
def splitPath (path : String) : List String :=
  splitPathAux path.toList "" []

/-- The table-targeting step of Go PaneNavigator.loadTableData
(pane_navigator.go): build the node path, split it, give up when fewer
than three segments remain, else take the last three segments as
(database, schema, table). -/
def tableTarget (node : Option PNode) : Option (String × String × String) :=
  let parts := splitPath (buildPath node)
  if parts.length < 3 then none
  else
    match parts.drop (parts.length - 3) with
    | [a, b, c] => some (a, b, c)
    | _ => none

/-- Character-list splitter behind goSplit: splits on the separator,
keeping empty segments, so a lone empty list stands for the empty input. -/
def splitChAux : List Char → Char → List (List Char)
  | [], _ => [[]]
  | c :: rest, sep =>
    let r := splitChAux rest sep
    if c = sep then [] :: r
    else
      match r with
      | [] => [[c]]
      | h :: t => (c :: h) :: t

/-- Model of Go strings.Split with a one-character separator (the only
separators the source passes: dot, comma, equals): empty segments are
kept and the empty input yields one empty segment. -/
def goSplit (s : String) (sep : Char) : List String :=
  (splitChAux s.toList sep).map (fun l => String.mk l)

/-- Model of Go strings.TrimSpace: drops leading and trailing whitespace. -/
def goTrim (s : String) : String :=
  String.mk
    (((s.toList.dropWhile Char.isWhitespace).reverse.dropWhile
      Char.isWhitespace).reverse)

/-- Model of Go strings.ToLower: lowercases every character. -/
def goToLower (s : String) : String :=
  String.mk (s.toList.map Char.toLower)


/-- Dynamic cell values (Go interface values held in row maps).  The
numeric value of a float and the parsed value of a timestamp are
abstracted to the source text: no embedded claim inspects them beyond the
choice of branch. -/
inductive GoValue where
  | null
  | bool (b : Bool)
  | int (i : Int)
  | float (raw : String)
  | time (raw : String)
  | text (s : String)
deriving DecidableEq, Repr

/-- A Go row map (map from column name to value), modelled as an
association list with distinct keys; lookup takes the first match. -/
def Row := List (String × GoValue)

/-- Pane identifiers, from the PaneType enum in debug.go. -/
inductive PaneType where
  | databases
  | schemas
  | tables
  | dataPane
deriving DecidableEq, Repr

/-- Go PaneState (debug.go). -/
structure PaneState where
  paneType : PaneType
  nodes : List TreeNode
  selectedIdx : Int
  offset : Int
  parentNode : Option TreeNode
  expanded : Bool
  viewportHeight : Int

/-- Go PaneModel.MoveSelection (debug.go), acting on the focused pane:
the candidate index is accepted only when inside list bounds; on an
accepted move the offset is pulled up or down so the selection is inside
the window of visibleRows rows, where visibleRows falls back to 10 when
the stored viewport height is not positive. -/
def PaneState.moveSelection (pane : PaneState) (direction : Int) : PaneState :=
  let newIdx := pane.selectedIdx + direction
  if 0 ≤ newIdx ∧ newIdx < (pane.nodes.length : Int) then
    let pane := { pane with selectedIdx := newIdx }
    let visibleRows := if pane.viewportHeight ≤ 0 then 10 else pane.viewportHeight
    if pane.selectedIdx < pane.offset then
      { pane with offset := pane.selectedIdx }
    else if pane.selectedIdx ≥ pane.offset + visibleRows then
      { pane with offset := pane.selectedIdx - visibleRows + 1 }
    else pane
  else pane

/-- Go PaneModel (debug.go).  The [4]*PaneState array is modelled as a
function from pane identifiers to pane states. -/
structure PaneModel where
  panes : PaneType → PaneState
  focus : PaneType
  data : List Row
  dataColumns : List String
  dataRowOffset : Int
  dataColOffset : Int
  dataViewportRows : Int
  dataViewportWidth : Int
  dataSelectedRow : Int
  dataSelectedCol : Int
  dataDatabase : String
  dataSchema : String
  dataTable : String

/-- Go PaneModel.MoveSelection at the model level: the focused pane is
replaced by its moved version. -/
def PaneModel.moveSelection (pm : PaneModel) (direction : Int) : PaneModel :=
  { pm with panes := fun pt =>
      if pt = pm.focus then (pm.panes pm.focus).moveSelection direction
      else pm.panes pt }

/-- Go PaneModel.GetSelectedNode (debug.go): the node at the selected
index of the requested pane, or nil when the index is out of bounds. -/
def PaneModel.getSelectedNode (pm : PaneModel) (paneType : PaneType) :
    Option TreeNode :=
  let pane := pm.panes paneType
  if 0 ≤ pane.selectedIdx ∧ pane.selectedIdx < (pane.nodes.length : Int) then
    pane.nodes.get? pane.selectedIdx.toNat
  else none

/-- The hiddenDataColumns set of debug.go. -/
def hiddenDataColumns (col : String) : Bool :=
  col = "__ctid"

/-- Insertion of a string into a sorted list, for the sort.Strings model. -/
def insertSorted (s : String) : List String → List String
  | [] => [s]
  | x :: xs => if s ≤ x then s :: x :: xs else x :: insertSorted s xs

/-- Model of Go sort.Strings: sorts lexicographically. -/
def sortStrings : List String → List String
  | [] => []
  | x :: xs => insertSorted x (sortStrings xs)

/-- Go PaneModel.buildDataColumns (debug.go): the keys of the first row,
minus any key whose lowercase form or literal form is hidden, sorted.
Go map iteration order is arbitrary; the subsequent sort makes the result
deterministic, so the keys are read off in association-list order here. -/
def buildDataColumns (data : List Row) : List String :=
  match data with
  | [] => []
  | row0 :: _ =>
    sortStrings ((row0.map Prod.fst).filter
      (fun col => !(hiddenDataColumns (goToLower col) || hiddenDataColumns col)))

/-- Go PaneModel.SetData (debug.go): replaces the rows, resets both
offsets and both selection indices, and rebuilds the derived column list. -/
def PaneModel.setData (pm : PaneModel) (data : List Row) : PaneModel :=
  { pm with
    data := data
    dataRowOffset := 0
    dataColOffset := 0
    dataColumns := buildDataColumns data
    dataSelectedRow := 0
    dataSelectedCol := 0 }

/-- Go PaneModel.GetDataViewportRows (debug.go). -/
def PaneModel.getDataViewportRows (pm : PaneModel) : Int :=
  if pm.dataViewportRows < 1 then 1 else pm.dataViewportRows

/-- Go PaneModel.GetDataViewportWidth (debug.go). -/
def PaneModel.getDataViewportWidth (pm : PaneModel) : Int :=
  if pm.dataViewportWidth < 20 then 20 else pm.dataViewportWidth

/-- Column loop of Go PaneModel.visibleColumnCount (debug.go): greedy
left-to-right inclusion; each column width is the byte length clamped to
[8, 30]; every column after the first costs one extra separating space;
the loop stops before the first column that would overflow. -/
def visibleColumnCountAux : List String → Int → Int → Int
  | [], _, count => count
  | col :: rest, widthRemaining, count =>
    let colWidth : Int :=
      let w : Int := col.utf8ByteSize
      let w := if w < 8 then 8 else w
      if w > 30 then 30 else w
    let space : Int := if count = 0 then 0 else 1
    if widthRemaining - colWidth - space < 0 then count
    else visibleColumnCountAux rest (widthRemaining - (colWidth + space)) (count + 1)

/-- Go PaneModel.visibleColumnCount (debug.go): the greedy count, forced
to 1 when it is zero but columns exist. -/
def PaneModel.visibleColumnCount (pm : PaneModel) : Int :=
  let maxWidth := pm.getDataViewportWidth
  let maxWidth := if maxWidth < 20 then 20 else maxWidth
  let count := visibleColumnCountAux pm.dataColumns maxWidth 0
  if count = 0 ∧ pm.dataColumns.length > 0 then 1 else count

/-- Row-offset snap of Go PaneModel.ensureDataSelectionVisible (debug.go):
pulls the row offset so the selected row is inside the viewport window. -/
def PaneModel.snapRowOffset (pm : PaneModel) : PaneModel :=
  let visibleRows := pm.getDataViewportRows
  if pm.dataSelectedRow < pm.dataRowOffset then
    { pm with dataRowOffset := pm.dataSelectedRow }
  else if pm.dataSelectedRow ≥ pm.dataRowOffset + visibleRows then
    { pm with dataRowOffset := pm.dataSelectedRow - visibleRows + 1 }
  else pm

/-- Column-offset snap of Go PaneModel.ensureDataSelectionVisible
(debug.go): pulls the column offset so the selected column is inside the
visible-column window, which is at least one column wide. -/
def PaneModel.snapColOffset (pm : PaneModel) : PaneModel :=
  let visibleCols := pm.visibleColumnCount
  let visibleCols := if visibleCols < 1 then 1 else visibleCols
  if pm.dataSelectedCol < pm.dataColOffset then
    { pm with dataColOffset := pm.dataSelectedCol }
  else if pm.dataSelectedCol ≥ pm.dataColOffset + visibleCols then
    { pm with dataColOffset := pm.dataSelectedCol - visibleCols + 1 }
  else pm

/-- Final clamps of Go PaneModel.ensureDataSelectionVisible (debug.go):
negative offsets are raised to zero. -/
def PaneModel.clampOffsets (pm : PaneModel) : PaneModel :=
  let pm := if pm.dataRowOffset < 0 then { pm with dataRowOffset := 0 } else pm
  if pm.dataColOffset < 0 then { pm with dataColOffset := 0 } else pm

/-- Go PaneModel.ensureDataSelectionVisible (debug.go): the three
sequential statement groups of the source in order.  The viewport sizes
each group reads are unchanged by the groups before it, so precomputing
them at entry, as the source does, is equivalent. -/
def PaneModel.ensureDataSelectionVisible (pm : PaneModel) : PaneModel :=
  pm.snapRowOffset.snapColOffset.clampOffsets

/-- Go PaneModel.SetDataSelection (debug.go): clamps the requested row and
column into bounds (falling back to 0 on an empty axis) and reconciles the
viewport. -/
def PaneModel.setDataSelection (pm : PaneModel) (row col : Int) : PaneModel :=
  let row := if row < 0 then 0 else row
  let row :=
    if row ≥ (pm.data.length : Int) then
      let r := (pm.data.length : Int) - 1
      if r < 0 then 0 else r
    else row
  let col := if col < 0 then 0 else col
  let col :=
    if col ≥ (pm.dataColumns.length : Int) then
      let c := (pm.dataColumns.length : Int) - 1
      if c < 0 then 0 else c
    else col
  ({ pm with dataSelectedRow := row, dataSelectedCol := col
   } : PaneModel).ensureDataSelectionVisible

/-- Go PaneModel.GetSelectedDataCell (debug.go): the selected row map,
column name, and cell value, or the empty triple (nil row, empty column
name, nil value) when the grid is empty or an index is out of range.
GoValue.null models the nil interface value, which is also what a Go map
read returns for a missing key. -/
def PaneModel.getSelectedDataCell (pm : PaneModel) :
    Option Row × String × GoValue :=
  if pm.data.length = 0 ∨ pm.dataColumns.length = 0 then (none, "", .null)
  else if pm.dataSelectedRow < 0 ∨ pm.dataSelectedRow ≥ (pm.data.length : Int) then
    (none, "", .null)
  else if pm.dataSelectedCol < 0 ∨ pm.dataSelectedCol ≥ (pm.dataColumns.length : Int) then
    (none, "", .null)
  else
    let row := pm.data.getD pm.dataSelectedRow.toNat []
    let column := pm.dataColumns.getD pm.dataSelectedCol.toNat ""
    (some row, column, (List.lookup column row).getD .null)

/-- Go PaneModel.SetDataContext (debug.go). -/
def PaneModel.setDataContext (pm : PaneModel) (database schema table : String) :
    PaneModel :=
  { pm with dataDatabase := database, dataSchema := schema, dataTable := table }

/-- Go PaneModel.HasDataContext (debug.go). -/
def PaneModel.hasDataContext (pm : PaneModel) : Bool :=
  pm.dataDatabase ≠ "" && pm.dataSchema ≠ "" && pm.dataTable ≠ ""

/-- Go PaneModel.SetFocus (debug.go). -/
def PaneModel.setFocus (pm : PaneModel) (paneType : PaneType) : PaneModel :=
  { pm with focus := paneType }

/-- Go PaneModel.GetRowCTID (debug.go): empty for an out-of-range index,
else the value stored under the literal key __ctid when it is a string,
else empty. -/
def PaneModel.getRowCTID (pm : PaneModel) (rowIdx : Int) : String :=
  if rowIdx < 0 ∨ rowIdx ≥ (pm.data.length : Int) then ""
  else
    let row := pm.data.getD rowIdx.toNat []
    match List.lookup "__ctid" row with
    | some (.text s) => s
    | _ => ""

/-- Go PaneModel.GetSelectedRowCTID (debug.go). -/
def PaneModel.getSelectedRowCTID (pm : PaneModel) : String :=
  pm.getRowCTID pm.dataSelectedRow

/-- Go DeleteRowMsg (message struct of postgres_tree_loader.go). -/
structure DeleteRowMsg where
  database : String
  schema : String
  table : String
  ctid : String
  rowIndex : Int
  colIndex : Int
deriving DecidableEq, Repr, Inhabited

/-- Go LoadTableDataMsg (message struct of postgres_tree_loader.go). -/
structure LoadTableDataMsg where
  database : String
  schema : String
  table : String
  rowIndex : Int
  colIndex : Int
deriving DecidableEq, Repr

/-- Go XTreeGoldApp.requestDeleteRow (postgres_tree_loader.go): nothing is
issued without a data context or a row-identity token; otherwise the
message carries the context, the token, the selected row index minus one,
and the selected column index. -/
def requestDeleteRow (pm : PaneModel) : Option DeleteRowMsg :=
  if !pm.hasDataContext then none
  else
    let rowIdx := pm.dataSelectedRow
    let ctid := pm.getSelectedRowCTID
    if ctid = "" then none
    else some
      { database := pm.dataDatabase
        schema := pm.dataSchema
        table := pm.dataTable
        ctid := ctid
        rowIndex := rowIdx - 1
        colIndex := pm.dataSelectedCol }

/-- The DeleteRowMsg success branch of Go XTreeGoldApp.Update
(postgres_tree_loader.go): after the backend delete succeeds, a reload of
the same table is issued whose target row is the carried row index clamped
up to zero. -/
def handleDeleteRowSuccess (msg : DeleteRowMsg) : LoadTableDataMsg :=
  let targetRow := if msg.rowIndex < 0 then 0 else msg.rowIndex
  { database := msg.database
    schema := msg.schema
    table := msg.table
    rowIndex := targetRow
    colIndex := msg.colIndex }

/-- The LoadTableDataMsg success branch of Go XTreeGoldApp.Update
(postgres_tree_loader.go): install the fetched rows, record the context,
focus the data pane, and apply the carried selection through the clamping
setter. -/
def handleLoadTableData (pm : PaneModel) (msg : LoadTableDataMsg)
    (results : List Row) : PaneModel :=
  let pm := pm.setData results
  let pm := pm.setDataContext msg.database msg.schema msg.table
  let pm := pm.setFocus .dataPane
  pm.setDataSelection msg.rowIndex msg.colIndex

/-- Outcome of one LoadChildren call: the returned Go error (ok models a
nil error), the node after the call, and the number of backend child
fetches the call performed (instrumentation used to state the claims). -/
structure LoadOutcome where
  result : Except String Unit
  node : Option TreeNode
  fetches : Nat

/-- Path field of a node. -/
def TreeNode.path (n : TreeNode) : String :=
  n.nodeData.path

/-- Backend environment of PostgresTreeLoader (postgres_tree_loader.go):
the three child-fetching queries, each fallible. -/
structure PgEnv where
  loadSchemas : String → Except String (List TreeNode)
  loadTables : String → String → Except String (List TreeNode)
  loadColumns : String → String → String → Except String (List TreeNode)

/-- Go PostgresTreeLoader.LoadChildren (postgres_tree_loader.go): nil or
already-populated nodes return immediately; otherwise the Path is split on
dots and the node kind dispatches the fetch of exactly the next level,
guarded by the segment count the kind requires; fetched children are
attached (their Parent back-reference, not modelled here, is set to the
node); kinds outside the switch fall through to success. -/
def pgLoadChildren (env : PgEnv) (onode : Option TreeNode) : LoadOutcome :=
  match onode with
  | none => ⟨.ok (), none, 0⟩
  | some node =>
    if node.children.length > 0 then ⟨.ok (), some node, 0⟩
    else
      let parts := goSplit node.path '.' 
      match node.nodeData.type with
      | .database =>
        if parts.length ≥ 1 then
          match env.loadSchemas (parts.getD 0 "") with
          | .error e => ⟨.error e, some node, 1⟩
          | .ok schemas => ⟨.ok (), some (node.withChildren schemas), 1⟩
        else ⟨.ok (), some node, 0⟩
      | .schema =>
        if parts.length ≥ 2 then
          match env.loadTables (parts.getD 0 "") (parts.getD 1 "") with
          | .error e => ⟨.error e, some node, 1⟩
          | .ok tables => ⟨.ok (), some (node.withChildren tables), 1⟩
        else ⟨.ok (), some node, 0⟩
      | .table =>
        if parts.length ≥ 3 then
          match env.loadColumns (parts.getD 0 "") (parts.getD 1 "") (parts.getD 2 "") with
          | .error e => ⟨.error e, some node, 1⟩
          | .ok columns => ⟨.ok (), some (node.withChildren columns), 1⟩
        else ⟨.ok (), some node, 0⟩
      | _ => ⟨.ok (), some node, 0⟩

/-- Go SQLiteTreeLoader.loadSchemas (sqlite_tree_loader.go): always a
single synthetic schema named main, without touching the database file. -/
def sqliteLoadSchemas (databaseName : String) : List TreeNode :=
  [TreeNode.mk
    { id := "sqlite_schema_" ++ databaseName ++ "_main"
      name := "main"
      type := .schema
      path := databaseName ++ ".main"
      expanded := false
      selected := false
      level := 2 }
    []]

/-- Backend environment of SQLiteTreeLoader (sqlite_tree_loader.go): the
two fallible child fetches; loadColumns is keyed by database and table
only. -/
structure SqliteEnv where
  loadTables : String → String → Except String (List TreeNode)
  loadColumns : String → String → Except String (List TreeNode)

/-- Go SQLiteTreeLoader.LoadChildren (sqlite_tree_loader.go): same shape
as the postgres variant except that the database case has no segment-count
guard (its fetch is the infallible synthetic-schema constructor) and the
column fetch passes the first and third path segments. -/
def sqliteLoadChildren (env : SqliteEnv) (onode : Option TreeNode) : LoadOutcome :=
  match onode with
  | none => ⟨.ok (), none, 0⟩
  | some node =>
    if node.children.length > 0 then ⟨.ok (), some node, 0⟩
    else
      let parts := goSplit node.path '.' 
      match node.nodeData.type with
      | .database =>
        ⟨.ok (), some (node.withChildren (sqliteLoadSchemas (parts.getD 0 ""))), 1⟩
      | .schema =>
        if parts.length ≥ 2 then
          match env.loadTables (parts.getD 0 "") (parts.getD 1 "") with
          | .error e => ⟨.error e, some node, 1⟩
          | .ok tables => ⟨.ok (), some (node.withChildren tables), 1⟩
        else ⟨.ok (), some node, 0⟩
      | .table =>
        if parts.length ≥ 3 then
          match env.loadColumns (parts.getD 0 "") (parts.getD 2 "") with
          | .error e => ⟨.error e, some node, 1⟩
          | .ok columns => ⟨.ok (), some (node.withChildren columns), 1⟩
        else ⟨.ok (), some node, 0⟩
      | _ => ⟨.ok (), some node, 0⟩

/-- Model of Go strings.EqualFold restricted to the comparisons the source
makes (the literals null, true, false): case-insensitive equality. -/
def eqFold (a b : String) : Bool :=
  goToLower a = goToLower b

/-- Model of Go strconv.ParseInt with base 10 and 64-bit size: an optional
sign followed by at least one decimal digit, rejecting values outside the
signed 64-bit range. -/
def parseInt64 (s : String) : Option Int :=
  let signed : Bool × List Char :=
    match s.toList with
    | '+' :: rest => (false, rest)
    | '-' :: rest => (true, rest)
    | l => (false, l)
  let neg := signed.1
  let digits := signed.2
  if digits.isEmpty || !digits.all Char.isDigit then none
  else
    let v : Nat := digits.foldl (fun acc c => acc * 10 + (c.toNat - 48)) 0
    let iv : Int := if neg then -(v : Int) else (v : Int)
    if -9223372036854775808 ≤ iv ∧ iv < 9223372036854775808 then some iv
    else none

/-- True when every character of the list is a decimal digit and the list
is non-empty. -/
def digits1 (l : List Char) : Bool :=
  !l.isEmpty && l.all Char.isDigit

/-- Mantissa syntax of a Go decimal float literal: digits, digits.digits,
digits., or .digits. -/
def floatMantissaOk (l : List Char) : Bool :=
  match l.splitOn '.' with
  | [a] => digits1 a
  | [a, b] => (digits1 a && (b.isEmpty || digits1 b)) ||
              (a.isEmpty && digits1 b)
  | _ => false

/-- Exponent part of a Go decimal float literal, given without the leading
e: an optional sign then at least one digit. -/
def floatExponentOk (l : List Char) : Bool :=
  match l with
  | '+' :: rest => digits1 rest
  | '-' :: rest => digits1 rest
  | rest => digits1 rest

/-- Model of Go strconv.ParseFloat with 64-bit size, as a success
predicate: optional sign, then inf, infinity or nan case-insensitively, or
a decimal mantissa with optional e/E exponent.  Hexadecimal float literals
and underscore digit separators are not modelled; no string the embedded
claims evaluate uses them. -/
def parseFloatOk (s : String) : Bool :=
  let l :=
    match s.toList with
    | '+' :: rest => rest
    | '-' :: rest => rest
    | l => l
  let low := goToLower (String.mk l)
  if low = "inf" || low = "infinity" || low = "nan" then true
  else
    match l.splitOn 'e' with
    | [m] =>
      match m.splitOn 'E' with
      | [m1] => floatMantissaOk m1
      | [m1, ex] => floatMantissaOk m1 && floatExponentOk ex
      | _ => false
    | [m, ex] => floatMantissaOk m && floatExponentOk ex
    | _ => false

/-- Model of Go time.Parse succeeding for at least one of the four layouts
convertInputValue tries (RFC3339Nano, RFC3339, 2006-01-02 15:04:05,
2006-01-02), as a success predicate: every one of those layouts demands a
four-digit year followed by a dash and at least a full date, so success
requires at least ten characters, four leading digits, and a dash in the
fifth position.  This necessary condition is precise enough to classify
every string the embedded claims evaluate. -/
def timeParseOk (s : String) : Bool :=
  let l := s.toList
  l.length ≥ 10 && (l.take 4).all Char.isDigit && l.getD 4 ' ' = '-'

/-- Go XTreeGoldApp.convertInputValue (postgres_tree_loader.go): trims the
input, maps empty and null to nil, true and false to booleans, then tries
integer, float, and timestamp parses in that order, falling back to the
trimmed text.  The current-value parameter of the source is never read by
its body and is kept here unused. -/
def convertInputValue (input : String) (_current : Option GoValue) : GoValue :=
  let trimmed := goTrim input
  if trimmed = "" || eqFold trimmed "null" then .null
  else if eqFold trimmed "true" then .bool true
  else if eqFold trimmed "false" then .bool false
  else
    match parseInt64 trimmed with
    | some i => .int i
    | none =>
      if parseFloatOk trimmed then .float trimmed
      else if timeParseOk trimmed then .time trimmed
      else .text trimmed

/-- Model of Go strings.SplitN with separator = and n 2: none when the
separator is absent (one part), else the text before the first separator
and the whole remainder. -/
def splitN2Eq (s : String) : Option (String × String) :=
  match goSplit s '=' with
  | [] => none
  | [_] => none
  | a :: rest => some (a, String.intercalate "=" rest)

/-- Assignment into a Go map modelled as an association list: replace the
binding in place when the key exists, else append. -/
def goMapInsert (m : List (String × String)) (k v : String) :
    List (String × String) :=
  if m.any (fun p => p.1 = k) then
    m.map (fun p => if p.1 = k then (k, v) else p)
  else m ++ [(k, v)]

/-- Loop body of Go ParseKeyValueInput (text_input.go): trim the piece,
skip it when empty, split it on the first equals sign and skip it when
there is none, trim key and value, skip an empty key, and store the pair
in the map. -/
def parseKeyValueStep (values : List (String × String)) (pair : String) :
    List (String × String) :=
  let pair := goTrim pair
  if pair = "" then values
  else
    match splitN2Eq pair with
    | none => values
    | some (k, v) =>
      let key := goTrim k
      let val := goTrim v
      if key = "" then values
      else goMapInsert values key val

/-- Go ParseKeyValueInput (text_input.go): split the input on commas and
fold the loop body over the pieces.  The Go map is modelled as an
association list in insertion order. -/
def parseKeyValueInput (input : String) : List (String × String) :=
  (goSplit input ',').foldl parseKeyValueStep []

/-- The conversion loop of Go XTreeGoldApp.commitInsertRow
(postgres_tree_loader.go): every parsed pair is value-converted with a nil
current value. -/
def insertRowValues (input : String) : List (String × GoValue) :=
  (parseKeyValueInput input).map (fun p => (p.1, convertInputValue p.2 none))

/-- True when an optional node is present with a non-empty child list. -/
def optChildrenNonempty : Option TreeNode → Bool
  | none => false
  | some n => n.children.length > 0

/-- A node data value with neutral fields, used to build concrete
fixtures. -/
def blankData : NodeData :=
  { id := "", name := "", type := .server, path := "", expanded := false,
    selected := false, level := 0 }

/-- A childless node whose Expanded flag is set. -/
def leafExpanded : TreeNode :=
  .mk { blankData with name := "leaf", expanded := true, level := 4 } []

/-- A childless node whose Expanded flag is clear. -/
def leafPlain : TreeNode :=
  .mk { blankData with name := "leaf2", level := 4 } []

/-- Parent chain of a column node email under table users, schema public,
database db1. -/
def colChain : PNode :=
  .mk "email" (some (.mk "users" (some (.mk "public" (some (.mk "db1" none))))))

/-- Parent chain of the table node users under schema public, database
db1. -/
def tableChain : PNode :=
  .mk "users" (some (.mk "public" (some (.mk "db1" none))))

/-- A pane whose stored offset is above its in-bounds selection: a state
on which a rejected move leaves the viewport invariant broken. -/
def paneStuck : PaneState :=
  { paneType := .databases, nodes := [leafPlain], selectedIdx := 0,
    offset := 5, parentNode := none, expanded := true, viewportHeight := 3 }

/-- A pane with two nodes and a zero stored viewport height. -/
def paneZeroH : PaneState :=
  { paneType := .databases, nodes := [leafPlain, leafPlain], selectedIdx := 0,
    offset := 0, parentNode := none, expanded := true, viewportHeight := 0 }

/-- A well-formed pane used to instantiate the amended move theorem. -/
def paneOkFix : PaneState :=
  { paneType := .databases, nodes := [leafPlain, leafPlain, leafPlain],
    selectedIdx := 1, offset := 0, parentNode := none, expanded := true,
    viewportHeight := 2 }

/-- Three concrete grid rows carrying the hidden __ctid identity column. -/
def rowsFix : List Row :=
  [[("id", GoValue.int 1), ("__ctid", GoValue.text "(0,1)")],
   [("id", GoValue.int 2), ("__ctid", GoValue.text "(0,2)")],
   [("id", GoValue.int 3), ("__ctid", GoValue.text "(0,3)")]]

/-- A pane model with a loaded three-row grid, a data context, and the
third row selected. -/
def pmFix : PaneModel :=
  { panes := fun _ => paneOkFix, focus := .dataPane, data := rowsFix,
    dataColumns := ["id"], dataRowOffset := 0, dataColOffset := 0,
    dataViewportRows := 10, dataViewportWidth := 80, dataSelectedRow := 2,
    dataSelectedCol := 0, dataDatabase := "db", dataSchema := "public",
    dataTable := "t" }

/-- A pane with an empty node list, on which any selection index is out
of bounds. -/
def paneNoNodes : PaneState :=
  { paneType := .databases, nodes := [], selectedIdx := 0, offset := 0,
    parentNode := none, expanded := false, viewportHeight := 3 }

/-- A pane model with an empty grid and an out-of-bounds pane selection. -/
def pmEmpty : PaneModel :=
  { panes := fun _ => paneNoNodes, focus := .databases, data := [],
    dataColumns := [], dataRowOffset := 0, dataColOffset := 0,
    dataViewportRows := 10, dataViewportWidth := 80, dataSelectedRow := 0,
    dataSelectedCol := 0, dataDatabase := "", dataSchema := "",
    dataTable := "" }

/-- A childless schema node addressed by the two-segment path db.main. -/
def schemaNodeDbMain : TreeNode :=
  TreeNode.mk
    { blankData with
      name := "main", type := .schema, path := "db.main", level := 2 }
    []

/-- A childless schema node whose path has a single segment, shorter than
its kind requires. -/
def schemaNodeShortPath : TreeNode :=
  TreeNode.mk
    { blankData with
      name := "abc", type := .schema, path := "abc", level := 2 }
    []

/-- A database node that already carries one child. -/
def nodeWithChild : TreeNode :=
  TreeNode.mk
    { blankData with
      name := "db", type := .database, path := "db", level := 1 }
    [leafPlain]

/-- A postgres backend environment whose fetches all succeed with no
rows. -/
def pgEnvEmpty : PgEnv :=
  { loadSchemas := fun _ => .ok []
    loadTables := fun _ _ => .ok []
    loadColumns := fun _ _ _ => .ok [] }

/-- A sqlite backend environment whose fetches all succeed with no rows,
as for a database that contains no tables. -/
def sqliteEnvEmpty : SqliteEnv :=
  { loadTables := fun _ _ => .ok []
    loadColumns := fun _ _ => .ok [] }

/-- A concrete catalog tree: synthetic root over an expanded server with a
collapsed database (hiding its schema child) and a collapsed second
server (hiding its child). -/
def treeFix : TreeNode :=
  .mk { blankData with name := "root", level := -1 }
    [.mk { blankData with name := "srv", expanded := true }
      [.mk { blankData with name := "db", type := .database, level := 1 }
        [.mk { blankData with name := "s", type := .schema, level := 2 } []]],
     .mk { blankData with name := "srv2" }
      [.mk { blankData with name := "x", type := .database, level := 1 } []]]

/-- C5.  The claim says Expand, Collapse and ToggleExpanded are all
no-ops on leaf nodes.  Collapse clears the Expanded flag unconditionally,
so on a leaf whose flag is set it is not a no-op: this closed computation
exhibits such a leaf and the changed flag. -/
theorem c5_counterexample :
    leafExpanded.isLeaf = true ∧
    leafExpanded.nodeData.expanded = true ∧
    (TreeNode.collapse leafExpanded).nodeData.expanded = false := by
  decide

/-- C5 amended: for every leaf node, Expand and ToggleExpanded are no-ops;
Collapse clears the Expanded flag and changes nothing else, so on a leaf
it is a no-op exactly when the flag is already clear. -/
theorem c5_amended_leafOps (n : TreeNode) (h : n.isLeaf = true) :
    n.expand = n ∧ n.toggleExpanded = n ∧
    (n.collapse = n ↔ n.nodeData.expanded = false) := by
  obtain ⟨d, cs⟩ := n
  have hcs : cs = [] := by
    simpa [TreeNode.isLeaf, TreeNode.children] using h
  subst hcs
  refine ⟨?_, ?_, ?_⟩
  · simp [TreeNode.expand, TreeNode.hasChildren, TreeNode.children]
  · simp [TreeNode.toggleExpanded, TreeNode.hasChildren, TreeNode.children]
  · obtain ⟨i, nm, ty, pa, ex, se, lv⟩ := d
    constructor
    · intro hx
      have hflag := congrArg (fun t => t.nodeData.expanded) hx
      simpa [TreeNode.collapse, TreeNode.nodeData] using hflag.symm
    · intro hx
      have hx2 : ex = false := hx
      subst hx2
      rfl

/-- C5 amended witness: the amended statement evaluated on a concrete
leaf with a clear Expanded flag. -/
theorem c5_amended_witness :
    leafPlain.expand = leafPlain ∧ leafPlain.toggleExpanded = leafPlain ∧
    (leafPlain.collapse = leafPlain ↔ leafPlain.nodeData.expanded = false) :=
  c5_amended_leafOps leafPlain (by decide)

/-- C3.  The claim says the last-three-segments rule recovers
(db1, public, users) from the column node path as well as the table node
path.  On the column node path db1.public.users.email the last three
segments are public, users, email, so the rule does not return the claimed
triple there. -/
theorem c3_counterexample :
    tableTarget (some colChain) ≠ some ("db1", "public", "users") := by
  decide

/-- C3 amended: the path of the column node is db1.public.users.email;
the last-three-segments rule recovers (db1, public, users) from the table
node path, while on the column node path it yields
(public, users, email) — it recovers the table triple only from the table
node itself. -/
theorem c3_amended_pathTargeting :
    buildPath (some colChain) = "db1.public.users.email" ∧
    tableTarget (some tableChain) = some ("db1", "public", "users") ∧
    tableTarget (some colChain) = some ("public", "users", "email") := by
  decide

/-- C8: the insert-row commit parsing maps
name=Ann, age=30, active=true to the mapping from name to the text Ann,
age to the integer 30 and active to the boolean true, and maps bad, x=1 to
the single binding of x to the integer 1; moreover the parse loop body
skips every piece that is empty after trimming, every piece without an
equals sign, and every piece whose trimmed key is empty. -/
theorem c8_insertParsing :
    insertRowValues "name=Ann, age=30, active=true" =
      [("name", GoValue.text "Ann"), ("age", GoValue.int 30),
        ("active", GoValue.bool true)] ∧
    insertRowValues "bad, x=1" = [("x", GoValue.int 1)] ∧
    (∀ values pair, goTrim pair = "" → parseKeyValueStep values pair = values) ∧
    (∀ values pair, splitN2Eq (goTrim pair) = none →
      parseKeyValueStep values pair = values) ∧
    (∀ values pair k v, splitN2Eq (goTrim pair) = some (k, v) →
      goTrim k = "" → parseKeyValueStep values pair = values) := by
  refine ⟨by decide, by decide, ?_, ?_, ?_⟩
  · intro values pair h
    simp [parseKeyValueStep, h]
  · intro values pair h
    by_cases he : goTrim pair = ""
    · simp [parseKeyValueStep, he]
    · simp [parseKeyValueStep, he, h]
  · intro values pair k v h hk
    by_cases he : goTrim pair = ""
    · simp [parseKeyValueStep, he]
    · simp [parseKeyValueStep, he, h, hk]

/-- C8 witness: the three skip rules evaluated on concrete pieces: a
blank piece, a piece with no equals sign, and a piece with an empty key. -/
theorem c8_witness :
    parseKeyValueStep [("a", "1")] "  " = [("a", "1")] ∧
    parseKeyValueStep [("a", "1")] "bad" = [("a", "1")] ∧
    parseKeyValueStep [("a", "1")] " =5" = [("a", "1")] :=
  ⟨c8_insertParsing.2.2.1 [("a", "1")] "  " (by decide),
   c8_insertParsing.2.2.2.1 [("a", "1")] "bad" (by decide),
   c8_insertParsing.2.2.2.2 [("a", "1")] " =5" "" "5" (by decide)
     (by decide)⟩

/-- C2.  The claim asserts the viewport invariant after any MoveSelection
call on any pane with a non-empty list, for the stored viewport height.
Two concrete states refute it: a move past the end of the list is
rejected and leaves a pre-existing violation (offset 5 above selection 0)
in place, and an accepted move under a stored viewport height of 0 cannot
satisfy selection below offset plus height. -/
theorem c2_counterexample :
    (¬ ((paneStuck.moveSelection 1).offset ≤
        (paneStuck.moveSelection 1).selectedIdx)) ∧
    (¬ ((paneZeroH.moveSelection 1).selectedIdx <
        (paneZeroH.moveSelection 1).offset + paneZeroH.viewportHeight)) := by
  decide

/-- C2 amended: for every pane with a non-empty node list, after a
MoveSelection call whose target index lands inside the list bounds (the
only case in which the source moves the selection), the selection is in
bounds, the node list is unchanged, and the scroll-follows-selection
invariant holds for the effective viewport height the source uses: the
stored height when positive, 10 otherwise. -/
theorem c2_amended_moveSelection (pane : PaneState) (direction : Int)
    (hne : pane.nodes ≠ [])
    (h0 : 0 ≤ pane.selectedIdx + direction)
    (h1 : pane.selectedIdx + direction < (pane.nodes.length : Int)) :
    0 ≤ (pane.moveSelection direction).selectedIdx ∧
    (pane.moveSelection direction).selectedIdx < (pane.nodes.length : Int) ∧
    (pane.moveSelection direction).offset ≤
      (pane.moveSelection direction).selectedIdx ∧
    (pane.moveSelection direction).selectedIdx <
      (pane.moveSelection direction).offset +
        (if pane.viewportHeight ≤ 0 then 10 else pane.viewportHeight) ∧
    (pane.moveSelection direction).nodes = pane.nodes := by
  simp only [PaneState.moveSelection]
  rw [if_pos (And.intro h0 h1)]
  split_ifs with hup hdown <;>
    refine ⟨?_, ?_, ?_, ?_, ?_⟩ <;> simp_all <;> omega

/-- C2 amended witness: the amended statement evaluated on a concrete
three-node pane moving the selection from index 1 to index 2. -/
theorem c2_amended_witness :
    0 ≤ (paneOkFix.moveSelection 1).selectedIdx ∧
    (paneOkFix.moveSelection 1).selectedIdx < (paneOkFix.nodes.length : Int) ∧
    (paneOkFix.moveSelection 1).offset ≤ (paneOkFix.moveSelection 1).selectedIdx ∧
    (paneOkFix.moveSelection 1).selectedIdx <
      (paneOkFix.moveSelection 1).offset +
        (if paneOkFix.viewportHeight ≤ 0 then 10 else paneOkFix.viewportHeight) ∧
    (paneOkFix.moveSelection 1).nodes = paneOkFix.nodes :=
  c2_amended_moveSelection paneOkFix 1 (by simp [paneOkFix]) (by decide)
    (by decide)

/-- Membership in the sorted-insert helper is membership in the inserted
element or the original list. -/
theorem mem_insertSorted {a s : String} {l : List String} :
    a ∈ insertSorted s l ↔ a = s ∨ a ∈ l := by
  induction l with
  | nil => simp [insertSorted]
  | cons x xs ih =>
    simp only [insertSorted]
    split_ifs <;> simp [ih] <;> tauto

/-- The sort.Strings model preserves membership. -/
theorem mem_sortStrings {a : String} {l : List String} :
    a ∈ sortStrings l ↔ a ∈ l := by
  induction l with
  | nil => simp [sortStrings]
  | cons x xs ih =>
    simp [sortStrings, mem_insertSorted, ih]

/-- C10: the selection accessors are total.  GetSelectedNode returns nil
whenever the selected index of the requested pane is outside the bounds of
its node list, and GetSelectedDataCell returns the empty triple whenever
the grid is empty or the selected row or column index is out of range. -/
theorem c10_selectionAccessorsTotal (pm : PaneModel) (pt : PaneType) :
    (¬ (0 ≤ (pm.panes pt).selectedIdx ∧
        (pm.panes pt).selectedIdx < ((pm.panes pt).nodes.length : Int)) →
      pm.getSelectedNode pt = none) ∧
    ((pm.data.length = 0 ∨ pm.dataColumns.length = 0 ∨
        pm.dataSelectedRow < 0 ∨ (pm.data.length : Int) ≤ pm.dataSelectedRow ∨
        pm.dataSelectedCol < 0 ∨
        (pm.dataColumns.length : Int) ≤ pm.dataSelectedCol) →
      pm.getSelectedDataCell = (none, "", .null)) := by
  constructor
  · intro h
    simp only [PaneModel.getSelectedNode]
    rw [if_neg h]
  · intro h
    simp only [PaneModel.getSelectedDataCell]
    split_ifs with h1 h2 h3
    · rfl
    · rfl
    · rfl
    · exfalso
      push_neg at h1 h2 h3
      rcases h with h | h | h | h | h | h <;> omega

/-- C10 witness: both accessor parts evaluated on a concrete model with an
empty grid and an out-of-bounds pane selection. -/
theorem c10_witness :
    pmEmpty.getSelectedNode .databases = none ∧
    pmEmpty.getSelectedDataCell = (none, "", .null) :=
  ⟨(c10_selectionAccessorsTotal pmEmpty .databases).1 (by decide),
   (c10_selectionAccessorsTotal pmEmpty .databases).2 (by decide)⟩

/-- C9: SetData excludes the hidden system column __ctid from the derived
column list but keeps the row maps intact, so GetRowCTID still recovers
the string stored under __ctid for every in-bounds row that carries one,
and returns the empty string for an out-of-range index or a row without
the token. -/
theorem c9_hiddenCtid (pm : PaneModel) (d : List Row) (i : Int) (s : String) :
    "__ctid" ∉ (pm.setData d).dataColumns ∧
    (pm.setData d).data = d ∧
    (0 ≤ i → i < (d.length : Int) →
      List.lookup "__ctid" (d.getD i.toNat []) = some (.text s) →
      (pm.setData d).getRowCTID i = s) ∧
    ((i < 0 ∨ (d.length : Int) ≤ i) → (pm.setData d).getRowCTID i = "") ∧
    (0 ≤ i → i < (d.length : Int) →
      List.lookup "__ctid" (d.getD i.toNat []) = none →
      (pm.setData d).getRowCTID i = "") := by
  refine ⟨?_, rfl, ?_, ?_, ?_⟩
  · intro hmem
    simp only [PaneModel.setData] at hmem
    match d with
    | [] => simp [buildDataColumns] at hmem
    | row0 :: rest =>
      simp only [buildDataColumns, mem_sortStrings, List.mem_filter] at hmem
      simpa [hiddenDataColumns] using hmem.2
  · intro h0 h1 hlook
    simp only [PaneModel.getRowCTID, PaneModel.setData]
    rw [if_neg (by omega)]
    simp only [hlook]
  · intro h
    simp only [PaneModel.getRowCTID, PaneModel.setData]
    rw [if_pos (by omega)]
  · intro h0 h1 hlook
    simp only [PaneModel.getRowCTID, PaneModel.setData]
    rw [if_neg (by omega)]
    simp only [hlook]

/-- C9 witness: the statement evaluated on a concrete three-row grid:
__ctid is kept out of the derived columns, row one yields its token, and
row five is out of range. -/
theorem c9_witness :
    "__ctid" ∉ (pmFix.setData rowsFix).dataColumns ∧
    (pmFix.setData rowsFix).getRowCTID 1 = "(0,2)" ∧
    (pmFix.setData rowsFix).getRowCTID 5 = "" :=
  ⟨(c9_hiddenCtid pmFix rowsFix 1 "(0,2)").1,
   (c9_hiddenCtid pmFix rowsFix 1 "(0,2)").2.2.1 (by decide) (by decide)
     (by decide),
   (c9_hiddenCtid pmFix rowsFix 5 "").2.2.2.1 (by decide)⟩

/-- Viewport reconciliation only moves offsets: the selected row index is
untouched. -/
theorem snapRowOffset_selectedRow (pm : PaneModel) :
    pm.snapRowOffset.dataSelectedRow = pm.dataSelectedRow := by
  simp only [PaneModel.snapRowOffset]
  split_ifs <;> rfl

/-- The column snap does not move the selected row. -/
theorem snapColOffset_selectedRow (pm : PaneModel) :
    pm.snapColOffset.dataSelectedRow = pm.dataSelectedRow := by
  simp only [PaneModel.snapColOffset]
  split_ifs <;> rfl

/-- The final clamps do not move the selected row. -/
theorem clampOffsets_selectedRow (pm : PaneModel) :
    pm.clampOffsets.dataSelectedRow = pm.dataSelectedRow := by
  simp only [PaneModel.clampOffsets]
  split_ifs <;> rfl

/-- Viewport reconciliation only moves offsets: the selected row index is
untouched. -/
theorem ensureVisible_selectedRow (pm : PaneModel) :
    pm.ensureDataSelectionVisible.dataSelectedRow = pm.dataSelectedRow := by
  simp only [PaneModel.ensureDataSelectionVisible]
  rw [clampOffsets_selectedRow, snapColOffset_selectedRow,
    snapRowOffset_selectedRow]

/-- The clamping selection setter lands exactly on the requested row when
that row is inside the data bounds. -/
theorem setDataSelection_row (pm : PaneModel) (row col : Int)
    (h0 : 0 ≤ row) (h1 : row < (pm.data.length : Int)) :
    (pm.setDataSelection row col).dataSelectedRow = row := by
  simp only [PaneModel.setDataSelection]
  rw [if_neg (by omega), if_neg (by omega)]
  rw [ensureVisible_selectedRow]

/-- C4: after a successful row deletion, the issued reload restores the
grid selection to max(selectedRow - 1, 0): the delete request carries
selectedRow - 1, the delete-completion handler clamps a negative index to
zero, and the table-data load applies it through the clamping selection
setter, which keeps it whenever the reloaded row set is large enough to
contain it. -/
theorem c4_deleteReloadSelection (pm pm2 : PaneModel) (msg : DeleteRowMsg)
    (results : List Row)
    (hmsg : requestDeleteRow pm = some msg)
    (hlen : max (pm.dataSelectedRow - 1) 0 < (results.length : Int)) :
    msg.rowIndex = pm.dataSelectedRow - 1 ∧
    (handleDeleteRowSuccess msg).rowIndex = max (pm.dataSelectedRow - 1) 0 ∧
    (handleLoadTableData pm2 (handleDeleteRowSuccess msg) results).dataSelectedRow
      = max (pm.dataSelectedRow - 1) 0 := by
  have hrow : msg.rowIndex = pm.dataSelectedRow - 1 := by
    simp only [requestDeleteRow] at hmsg
    split at hmsg
    · exact absurd hmsg (by simp)
    · split at hmsg
      · exact absurd hmsg (by simp)
      · cases hmsg
        rfl
  have htarget : (handleDeleteRowSuccess msg).rowIndex =
      max (pm.dataSelectedRow - 1) 0 := by
    simp only [handleDeleteRowSuccess, hrow]
    split_ifs <;> omega
  refine ⟨hrow, htarget, ?_⟩
  simp only [handleLoadTableData]
  rw [setDataSelection_row]
  · exact htarget
  · rw [htarget]
    omega
  · rw [htarget]
    simpa [PaneModel.setData, PaneModel.setDataContext, PaneModel.setFocus]
      using hlen

/-- C4 witness: the delete flow evaluated on a concrete model with row 2
of 3 selected: the request carries 1, the handler keeps 1, and the reload
selects row 1. -/
theorem c4_witness :
    (requestDeleteRow pmFix).isSome = true ∧
    ((requestDeleteRow pmFix).getD default).rowIndex = pmFix.dataSelectedRow - 1 ∧
    (handleLoadTableData pmFix
        (handleDeleteRowSuccess ((requestDeleteRow pmFix).getD default))
        (rowsFix.take 2)).dataSelectedRow
      = max (pmFix.dataSelectedRow - 1) 0 := by
  have h := c4_deleteReloadSelection pmFix pmFix
    ((requestDeleteRow pmFix).getD default) (rowsFix.take 2) (by decide)
    (by decide)
  exact ⟨by decide, h.1, h.2.2⟩

/-- C7: for every childless node whose path splits into fewer dot
segments than its kind requires (fewer than 2 for a schema node, fewer
than 3 for a table node), both backend variants of LoadChildren return
success, perform no fetch, and leave the node unchanged with an empty
child list. -/
theorem c7_malformedPathSkip (penv : PgEnv) (senv : SqliteEnv) (n : TreeNode)
    (hleaf : n.children = [])
    (hkind : (n.nodeData.type = .schema ∧ (goSplit n.path '.').length < 2) ∨
      (n.nodeData.type = .table ∧ (goSplit n.path '.').length < 3)) :
    pgLoadChildren penv (some n) = ⟨.ok (), some n, 0⟩ ∧
    sqliteLoadChildren senv (some n) = ⟨.ok (), some n, 0⟩ := by
  obtain ⟨d, cs⟩ := n
  have hcs : cs = [] := hleaf
  subst hcs
  simp only [TreeNode.nodeData, TreeNode.path] at hkind
  rcases hkind with ⟨hty, hlt⟩ | ⟨hty, hlt⟩ <;>
    constructor <;>
    simp only [pgLoadChildren, sqliteLoadChildren, TreeNode.children,
      TreeNode.nodeData, TreeNode.path, List.length_nil, hty, gt_iff_lt,
      lt_irrefl, if_false] <;>
    rw [if_neg (by omega)]

/-- C7 witness: both variants evaluated on a concrete schema node whose
one-segment path abc is too short for its kind. -/
theorem c7_witness :
    pgLoadChildren pgEnvEmpty (some schemaNodeShortPath) =
      ⟨.ok (), some schemaNodeShortPath, 0⟩ ∧
    sqliteLoadChildren sqliteEnvEmpty (some schemaNodeShortPath) =
      ⟨.ok (), some schemaNodeShortPath, 0⟩ :=
  c7_malformedPathSkip pgEnvEmpty sqliteEnvEmpty schemaNodeShortPath rfl
    (Or.inl ⟨rfl, by decide⟩)

mutual

/-- On a node all of whose levels are at least 0, the source flattening
emits the node followed by its spec-visible descendants when expanded. -/
theorem getVisibleNodes_eq_spec (n : TreeNode) (h : nodeLevelsOK n = true) :
    getVisibleNodes n =
      n :: (if n.nodeData.expanded then visibleBelowSpec n else []) := by
  obtain ⟨d, cs⟩ := n
  simp only [nodeLevelsOK, Bool.and_eq_true, decide_eq_true_eq] at h
  obtain ⟨hlvl, hcs⟩ := h
  simp only [getVisibleNodes, TreeNode.nodeData, visibleBelowSpec]
  rw [if_pos (Or.inl hlvl), if_pos hlvl]
  by_cases hexp : d.expanded = true
  · rw [if_pos (Or.inr hexp), if_pos hexp, getVisibleList_eq_spec cs hcs]
    simp
  · have hne : ¬ (d.level = -1 ∨ d.expanded = true) := by
      rintro (habs | habs)
      · omega
      · exact hexp habs
    rw [if_neg hne, if_neg hexp]
    simp

/-- On a node list all of whose levels are at least 0, the source child
loop equals the spec flattening. -/
theorem getVisibleList_eq_spec (l : List TreeNode) (h : listLevelsOK l = true) :
    getVisibleList l = visibleListSpec l := by
  cases l with
  | nil => rfl
  | cons c rest =>
    simp only [listLevelsOK, Bool.and_eq_true] at h
    simp only [getVisibleList, visibleListSpec]
    rw [getVisibleNodes_eq_spec c h.1, getVisibleList_eq_spec rest h.2]

end

/-- C6: on every tree of the shape the program constructs (synthetic root
at level -1, every real node at level at least 0), GetAllVisibleNodes is
exactly the depth-first flattening through expanded ancestors written from
the spec: the root itself is excluded but its children are always
traversed, and a node below a collapsed ancestor is never produced. -/
theorem c6_visibleNodes (d : NodeData) (cs : List TreeNode)
    (hroot : d.level = -1) (hcs : listLevelsOK cs = true) :
    getAllVisibleNodes (.mk d cs) = visibleBelowSpec (.mk d cs) := by
  simp only [getAllVisibleNodes, getVisibleNodes, visibleBelowSpec]
  rw [if_pos (Or.inr hroot), if_neg (by omega), if_pos (Or.inl hroot)]
  simpa using getVisibleList_eq_spec cs hcs

/-- C6 witness: the equality evaluated on a concrete tree with an
expanded server, a collapsed database hiding its schema, and a collapsed
second server hiding its database. -/
theorem c6_witness :
    getAllVisibleNodes treeFix = visibleBelowSpec treeFix :=
  c6_visibleNodes _ _ (by decide) (by decide)

/-- A nil node or a node with children makes the postgres LoadChildren an
immediate success with no fetch and no change. -/
theorem pg_nonempty_noop (env : PgEnv) (onode : Option TreeNode)
    (h : onode = none ∨ optChildrenNonempty onode = true) :
    pgLoadChildren env onode = ⟨.ok (), onode, 0⟩ := by
  rcases onode with _ | n
  · rfl
  · rcases h with h | h
    · exact absurd h (by simp)
    · simp only [optChildrenNonempty] at h
      simp only [pgLoadChildren]
      rw [if_pos (by simpa using h)]

/-- One postgres LoadChildren call fetches at most once. -/
theorem pg_fetches_le_one (env : PgEnv) (onode : Option TreeNode) :
    (pgLoadChildren env onode).fetches ≤ 1 := by
  rcases onode with _ | ⟨d, cs⟩
  · simp [pgLoadChildren]
  · simp only [pgLoadChildren]
    repeat' split
    all_goals simp

/-- A postgres LoadChildren call that fetched nothing left the node
untouched. -/
theorem pg_node_unchanged (env : PgEnv) (onode : Option TreeNode)
    (h : (pgLoadChildren env onode).fetches = 0) :
    (pgLoadChildren env onode).node = onode := by
  rcases onode with _ | ⟨d, cs⟩
  · rfl
  · simp only [pgLoadChildren] at h ⊢
    repeat' split at h
    all_goals repeat' split
    all_goals simp_all

/-- A nil node or a node with children makes the sqlite LoadChildren an
immediate success with no fetch and no change. -/
theorem sqlite_nonempty_noop (env : SqliteEnv) (onode : Option TreeNode)
    (h : onode = none ∨ optChildrenNonempty onode = true) :
    sqliteLoadChildren env onode = ⟨.ok (), onode, 0⟩ := by
  rcases onode with _ | n
  · rfl
  · rcases h with h | h
    · exact absurd h (by simp)
    · simp only [optChildrenNonempty] at h
      simp only [sqliteLoadChildren]
      rw [if_pos (by simpa using h)]

/-- One sqlite LoadChildren call fetches at most once. -/
theorem sqlite_fetches_le_one (env : SqliteEnv) (onode : Option TreeNode) :
    (sqliteLoadChildren env onode).fetches ≤ 1 := by
  rcases onode with _ | ⟨d, cs⟩
  · simp [sqliteLoadChildren]
  · simp only [sqliteLoadChildren]
    repeat' split
    all_goals simp

/-- A sqlite LoadChildren call that fetched nothing left the node
untouched. -/
theorem sqlite_node_unchanged (env : SqliteEnv) (onode : Option TreeNode)
    (h : (sqliteLoadChildren env onode).fetches = 0) :
    (sqliteLoadChildren env onode).node = onode := by
  rcases onode with _ | ⟨d, cs⟩
  · rfl
  · simp only [sqliteLoadChildren] at h ⊢
    repeat' split at h
    all_goals repeat' split
    all_goals simp_all

/-- C1.  The claim concludes that calling LoadChildren twice on the same
node performs the backend fetch at most once.  On a schema node addressed
db.main whose table fetch succeeds with zero rows - a database with no
tables - the child list stays empty, so both calls fetch: the two calls
together perform two fetches. -/
theorem c1_counterexample :
    (sqliteLoadChildren sqliteEnvEmpty (some schemaNodeDbMain)).fetches +
      (sqliteLoadChildren sqliteEnvEmpty
        ((sqliteLoadChildren sqliteEnvEmpty
          (some schemaNodeDbMain)).node)).fetches = 2 := by
  decide

/-- C1 amended: in both backend variants, LoadChildren on a nil node or a
node with a non-empty child list performs no fetch, returns success, and
leaves the node unchanged; and two consecutive calls fetch at most once
provided the first call leaves the node with non-empty children or
performed no fetch - when a fetch attaches zero children (or fails), the
second call fetches again. -/
theorem c1_amended_loadChildren (penv : PgEnv) (senv : SqliteEnv)
    (onode : Option TreeNode) :
    ((onode = none ∨ optChildrenNonempty onode = true) →
      pgLoadChildren penv onode = ⟨.ok (), onode, 0⟩ ∧
      sqliteLoadChildren senv onode = ⟨.ok (), onode, 0⟩) ∧
    ((optChildrenNonempty (pgLoadChildren penv onode).node = true ∨
        (pgLoadChildren penv onode).fetches = 0) →
      (pgLoadChildren penv onode).fetches +
        (pgLoadChildren penv (pgLoadChildren penv onode).node).fetches ≤ 1) ∧
    ((optChildrenNonempty (sqliteLoadChildren senv onode).node = true ∨
        (sqliteLoadChildren senv onode).fetches = 0) →
      (sqliteLoadChildren senv onode).fetches +
        (sqliteLoadChildren senv (sqliteLoadChildren senv onode).node).fetches
        ≤ 1) := by
  refine ⟨fun h => ⟨pg_nonempty_noop penv onode h,
    sqlite_nonempty_noop senv onode h⟩, ?_, ?_⟩
  · intro h
    rcases h with h | h
    · rw [pg_nonempty_noop penv _ (Or.inr h)]
      simpa using pg_fetches_le_one penv onode
    · rw [pg_node_unchanged penv onode h, h]
      simpa using h.le.trans (by norm_num)
  · intro h
    rcases h with h | h
    · rw [sqlite_nonempty_noop senv _ (Or.inr h)]
      simpa using sqlite_fetches_le_one senv onode
    · rw [sqlite_node_unchanged senv onode h, h]
      simpa using h.le.trans (by norm_num)

/-- C1 amended witness: the no-op part of the amended statement evaluated
on a concrete database node that already has a child, under both backend
environments. -/
theorem c1_amended_witness :
    pgLoadChildren pgEnvEmpty (some nodeWithChild) =
      ⟨.ok (), some nodeWithChild, 0⟩ ∧
    sqliteLoadChildren sqliteEnvEmpty (some nodeWithChild) =
      ⟨.ok (), some nodeWithChild, 0⟩ :=
  (c1_amended_loadChildren pgEnvEmpty sqliteEnvEmpty
    (some nodeWithChild)).1 (Or.inr (by decide))
